import Mathlib

/-!
Verification of the medical/pharma event scraper (`medical_pharma_scraper.py`).

The scraper's pure logic is embedded shallowly:
* Python string operations (`split`, `strip`, `lower`, `title`, slicing,
  substring tests) are modelled as executable functions on `List Char` / `String`.
* The two regular expressions whose semantics the code depends on
  (the anchored email-format pattern of `validate_email_format` and the
  `findall` email pattern of heuristic B, plus the `window.open` capture of the
  card parser) are modelled as executable matchers with Python `re` semantics
  (leftmost scan, greedy with backtracking, `\b` word boundaries, and the
  `$`-before-trailing-newline rule of `re.match`).
* Network calls (`requests.get` / `requests.head`) are environment functions
  returning `Except String _`; an `Except.error` models a raised exception.
* BeautifulSoup queries are abstracted into the data they deliver to the code
  (text hits per keyword, raw markup, contact links, card cells).
-/

/-! ### Python string primitives -/

/-- Python whitespace characters recognised by `str.strip()`. -/
def isPySpace (c : Char) : Bool :=
  c == ' ' || c == '\t' || c == '\n' || c == '\r' || c == '\x0b' || c == '\x0c'

/-- Python `s.strip()`. -/
def pyStrip (s : String) : String :=
  String.mk (((s.data.dropWhile isPySpace).reverse.dropWhile isPySpace).reverse)

/-- Python `s.lower()` (ASCII). -/
def pyLower (s : String) : String :=
  String.mk (s.data.map Char.toLower)

/-- Python `s[:n]` (slicing by code points). -/
def pyTake (n : Nat) (s : String) : String :=
  String.mk (s.data.take n)

/-- Python `s.startswith(pre)`. -/
def pyStartsWith (s pre : String) : Bool :=
  pre.data.isPrefixOf s.data

/-- Python `pat in s` for nonempty `pat`: substring containment. -/
def isSubChars (pat : List Char) : List Char → Bool
  | [] => pat.isEmpty
  | c :: t => pat.isPrefixOf (c :: t) || isSubChars pat t

/-- Python `sep.join(xs)`. -/
def pyJoin (sep : String) : List String → String
  | [] => ""
  | x :: rest => rest.foldl (fun acc y => acc ++ sep ++ y) x

/-- Python `s.split(sep)` for a nonempty separator `s0 :: srest`.  The fuel
is an upper bound on the number of steps; every step consumes at least one
character, so `length + 1` fuel never runs out. -/
def pySplitGo (s0 : Char) (srest : List Char) : Nat → List Char → List (List Char)
  | _, [] => [[]]
  | 0, _ :: _ => [[]]
  | fuel + 1, c :: t =>
    if c == s0 && srest.isPrefixOf t then
      [] :: pySplitGo s0 srest fuel (t.drop srest.length)
    else
      match pySplitGo s0 srest fuel t with
      | [] => [[c]]
      | p :: ps => (c :: p) :: ps

def pySplit (s0 : Char) (srest : List Char) (l : List Char) : List (List Char) :=
  pySplitGo s0 srest (l.length + 1) l

/-- Python `s.split(sep)` on strings (`sep` nonempty in every use below). -/
def pySplitS (sep : String) (s : String) : List String :=
  match sep.data with
  | [] => [s]
  | c :: cs => (pySplit c cs s.data).map String.mk

/-- Python `str.title()` (ASCII): uppercase each letter that follows a
non-letter, lowercase the other letters. -/
def pyTitleGo : Bool → List Char → List Char
  | _, [] => []
  | prevAlpha, c :: t =>
    if c.isAlpha then
      (if prevAlpha then c.toLower else c.toUpper) :: pyTitleGo true t
    else c :: pyTitleGo false t

def pyTitle (s : String) : String :=
  String.mk (pyTitleGo false s.data)

/-- `re.sub(r'-+', ' ', s)`: replace every maximal run of hyphens by one space.
The boolean records whether the previous character was a hyphen. -/
def collapseHyphensGo : Bool → List Char → List Char
  | _, [] => []
  | prevHyp, c :: t =>
    if c == '-' then
      if prevHyp then collapseHyphensGo true t
      else ' ' :: collapseHyphensGo true t
    else c :: collapseHyphensGo false t

def collapseHyphens (s : String) : String :=
  String.mk (collapseHyphensGo false s.data)

/-! ### The anchored email-format regex of `validate_email_format`

Pattern: `^[a-zA-Z0-9._%+-]+@[a-zA-Z0-9.-]+\.[a-zA-Z]{2,}$`.
A string matches iff it decomposes as `local ++ '@' :: dom ++ '.' :: tld`
with `local` a nonempty run of local-class characters, `dom` a nonempty run
of domain-class characters and `tld` at least two letters reaching the end.
`re.match` additionally lets `$` match just before one trailing newline. -/

def isLocalChar (c : Char) : Bool :=
  c.isAlphanum || c == '.' || c == '_' || c == '%' || c == '+' || c == '-'

def isDomChar (c : Char) : Bool :=
  c.isAlphanum || c == '.' || c == '-'

/-- Matcher for `[a-zA-Z0-9.-]+\.[a-zA-Z]{2,}$` (existence of a split). -/
def emailDomain (r : List Char) : Bool :=
  (List.range (r.length + 1)).any fun j =>
    (!(r.take j).isEmpty) && (r.take j).all isDomChar &&
      (match r.drop j with
       | c :: tld => c == '.' && decide (2 ≤ tld.length) && tld.all Char.isAlpha
       | [] => false)

/-- Matcher for the full anchored pattern (without the trailing-newline rule). -/
def emailCore (l : List Char) : Bool :=
  (List.range (l.length + 1)).any fun i =>
    (!(l.take i).isEmpty) && (l.take i).all isLocalChar &&
      (match l.drop i with
       | c :: rest => c == '@' && emailDomain rest
       | [] => false)

/-- `validate_email_format` (line 69): `re.match(pattern, email) is not None`,
with the Python rule that `$` also matches before a single trailing newline. -/
def validate_email_format (email : String) : Bool :=
  emailCore email.data ||
    (match email.data.getLast? with
     | some c => c == '\n' && emailCore email.data.dropLast
     | none => false)

/-- A dot immediately followed by at least two letters occurs somewhere. -/
def hasTLDsegment : List Char → Bool
  | [] => false
  | c :: t =>
    (c == '.' && decide (2 ≤ t.length) && (t.take 2).all Char.isAlpha) ||
      hasTLDsegment t

/-! ### The `findall` email pattern of heuristic B

Pattern: `\b[A-Za-z0-9._%+-]+@[A-Za-z0-9.-]+\.[A-Z|a-z]{2,}\b` applied with
`re.findall` to the whole markup.  Note the character class `[A-Z|a-z]`
literally contains `|`.  The matcher below reproduces Python backtracking:
the local part is a maximal run (shorter runs cannot be followed by `@`),
the domain backtracks over its dots from the rightmost one inside the maximal
domain run, and the TLD is greedy with backtracking down to length 2 against
the trailing word boundary. -/

def isWordChar (c : Char) : Bool := c.isAlphanum || c == '_'

def isWordOpt : Option Char → Bool
  | some c => isWordChar c
  | none => false

def isTldChar (c : Char) : Bool := c.isAlpha || c == '|'

/-- Greedy TLD with trailing `\b`: given `rest2` (the text after `@`) and the
index `d` of the chosen dot, return the end offset of the match inside
`rest2`, if some TLD length from the maximal one down to 2 satisfies the
final word boundary. -/
def tryTld (rest2 : List Char) (d : Nat) : Option Nat :=
  let tldRun := (rest2.drop (d + 1)).takeWhile isTldChar
  let ks := ((List.range (tldRun.length + 1)).reverse).filter (fun k => 2 ≤ k)
  (ks.find? (fun k =>
    match tldRun.get? (k - 1) with
    | some c => isWordChar c != isWordOpt ((rest2.drop (d + 1 + k)).head?)
    | none => false)).map (fun k => d + 1 + k)

/-- Try to match the findall pattern at the current position.  `prev` is the
character immediately before the position (`none` at the start of the text).
Returns the length of the match. -/
def emailMatchAt (prev : Option Char) (l : List Char) : Option Nat :=
  let loc := l.takeWhile isLocalChar
  match loc.head? with
  | none => none
  | some c0 =>
    if isWordOpt prev == isWordChar c0 then none
    else
      let rest1 := l.drop loc.length
      match rest1.head? with
      | some a =>
        if a == '@' then
          let rest2 := rest1.drop 1
          let domRun := rest2.takeWhile isDomChar
          let ds := ((List.range domRun.length).reverse).filter
            (fun d => decide (1 ≤ d) && (domRun.get? d == some '.'))
          (ds.findSome? (fun d => tryTld rest2 d)).map
            (fun e => loc.length + 1 + e)
        else none
      | none => none

/-- `re.findall` scan: try to match at every position, left to right, resuming
after the end of each match.  The fuel is an upper bound on the number of
steps; every step consumes at least one character. -/
def findallGo : Nat → Option Char → List Char → List (List Char)
  | 0, _, _ => []
  | _ + 1, _, [] => []
  | fuel + 1, prev, c :: t =>
    match emailMatchAt prev (c :: t) with
    | some n =>
      (c :: t).take n :: findallGo fuel (((c :: t).take n).getLast?) ((c :: t).drop n)
    | none => findallGo fuel (some c) t

/-- `re.findall(email_pattern, markup)` (line 115). -/
def email_pattern_findall (s : String) : List String :=
  (findallGo (s.data.length + 1) none s.data).map String.mk

/-! ### Data model -/

/-- The `organizer_info` dictionary of `extract_organizer_details`. -/
structure OrganizerInfo where
  organiser_name : String
  organiser_website : String
  organiser_email : String
  contact_person : String
  verification_status : String
deriving DecidableEq

/-- Initial value of `organizer_info` (lines 78-84). -/
def initOrganizerInfo : OrganizerInfo :=
  ⟨"N/A", "N/A", "N/A", "N/A", "Unverified"⟩

/-- An `<a>` element as used by heuristic A: its `href` attribute (absent or a
string) and its stripped visible text. -/
structure LinkInfo where
  href : Option String
  text : String
deriving DecidableEq

/-- A sibling element inspected by heuristic A; `firstA` is `element.find('a')`. -/
structure SibElem where
  firstA : Option LinkInfo
deriving DecidableEq

/-- One hit of `soup.find_all(text=re.compile(keyword, re.IGNORECASE))`:
`parentNextSiblings` is `section.parent.find_next_siblings()`, or `none`
when `section.parent` is `None`. -/
structure TextHit where
  parentNextSiblings : Option (List SibElem)
deriving DecidableEq

/-- A link returned by the contact-link query of heuristic C (its matching
text is irrelevant to the code, only the `href` is read). -/
structure CLink where
  href : Option String
deriving DecidableEq

/-- An event detail page, abstracted into what the three heuristics read:
the text hits per keyword, the raw markup `str(soup)`, and the links found
by `soup.find_all('a', text=re.compile(r'contact|about|organizer', ...))`. -/
structure Page where
  sectionsFor : String → List TextHit
  markup : String
  contactLinks : List CLink

/-- The `div.venue` cell of a listing card: text of the inner `<a>` if any,
and the text of the div itself. -/
structure VenueDiv where
  linkText : Option String
  divText : String
deriving DecidableEq

/-- One `tr.event-card` fragment, abstracted into the cells the card parser
reads: text of `td.text-dark`, the `onclick` attribute of the clickable td,
and the venue div. -/
structure Card where
  dateTd : Option String
  onclick : Option String
  venue : Option VenueDiv
deriving DecidableEq

/-- The per-event data extracted by the card parser. -/
structure EventData where
  event_date : String
  event_link : String
  event_name : String
  city : String
  state : String
deriving DecidableEq

/-- A fully combined record (`{**event_data, **organizer_info}` plus
`validation_notes`).  The unused `contact_person` key is never read by the
reporter and is omitted. -/
structure EventRecord where
  event_name : String
  event_date : String
  city : String
  state : String
  organiser_name : String
  organiser_website : String
  organiser_email : String
  event_link : String
  verification_status : String
  validation_notes : String
deriving DecidableEq

/-- The configuration constants of the configuration panel (lines 29-37). -/
structure Config where
  eventsToScrape : Nat
  useStealthMode : Bool
  requestDelay : Nat
  outputCsv : String
  validationLog : String

abbrev Headers := List (String × String)

abbrev HeadFn := String → Headers → Except String Nat

/-- The external world: clock, the listing fetch, the detail-page fetch
(parsed into a `Page`), the HEAD probe (status code or exception), and
`urllib.parse.urljoin`. -/
structure Env where
  now : String
  listing : Headers → Except String (List Card)
  detail : String → Headers → Except String Page
  head : HeadFn
  urljoin : String → String → String

/-! ### Fetcher and validator -/

/-- `get_stealth_headers` (lines 43-59): a fixed header set, independent of
any configuration value. -/
def get_stealth_headers : Headers :=
  [("User-Agent", "Mozilla/5.0 (Windows NT 10.0; Win64; x64) AppleWebKit/537.36 (KHTML, like Gecko) Chrome/120.0.0.0 Safari/537.36"),
   ("Accept", "text/html,application/xhtml+xml,application/xml;q=0.9,image/avif,image/webp,image/apng,*/*;q=0.8"),
   ("Accept-Language", "en-US,en;q=0.9"),
   ("Accept-Encoding", "gzip, deflate, br"),
   ("DNT", "1"),
   ("Connection", "keep-alive"),
   ("Upgrade-Insecure-Requests", "1"),
   ("Sec-Fetch-Dest", "document"),
   ("Sec-Fetch-Mode", "navigate"),
   ("Sec-Fetch-Site", "none"),
   ("Sec-Fetch-User", "?1"),
   ("Cache-Control", "max-age=0"),
   ("Referer", "https://google.com")]

/-- `validate_url` (lines 61-67): HEAD request with the stealth headers;
true iff the status code is 200, 301 or 302; any exception yields false. -/
def validate_url (head : HeadFn) (url : String) : Bool :=
  match head url get_stealth_headers with
  | .ok code => decide (code ∈ ([200, 301, 302] : List Nat))
  | .error _ => false

/-! ### Organizer extractor -/

def organizer_keywords : List String :=
  ["organizer", "organised by", "organiser", "hosted by", "presented by"]

def social_fragments : List String :=
  ["facebook", "twitter", "linkedin", "google", "youtube"]

/-- The blocklist test of heuristic B:
`any(x in e.lower() for x in [...])` (line 119). -/
def isSocialEmail (e : String) : Bool :=
  social_fragments.any (fun x => isSubChars x.data (pyLower e).data)

/-- The inner sibling loop of heuristic A (lines 103-111).  On the first
qualifying link the fields are set and the loop `break`s; the error case
models the `IndexError` raised by `href.split('//')[1]` when the link text is
empty and the href has no `//` (the partially updated state is carried so the
enclosing `except` can keep it). -/
def scanSiblings : List SibElem → OrganizerInfo →
    Except (String × OrganizerInfo) OrganizerInfo
  | [], info => .ok info
  | e :: rest, info =>
    match e.firstA with
    | some link =>
      match link.href with
      | some href =>
        if href = "" then scanSiblings rest info
        else if !(pyStartsWith href "mailto:") && isSubChars "http".data href.data then
          let info1 := { info with organiser_website := href }
          if link.text = "" then
            match (pySplitS "//" href).get? 1 with
            | some seg =>
              .ok { info1 with
                      organiser_name := (pySplitS "/" seg).headD "",
                      verification_status := "Website_Found" }
            | none => .error ("list index out of range", info1)
          else
            .ok { info1 with
                    organiser_name := link.text,
                    verification_status := "Website_Found" }
        else scanSiblings rest info
      | none => scanSiblings rest info
    | none => scanSiblings rest info

/-- One text hit of heuristic A (lines 99-102): if the hit has a parent, scan
up to three of its next siblings. -/
def scanHit (hit : TextHit) (info : OrganizerInfo) :
    Except (String × OrganizerInfo) OrganizerInfo :=
  match hit.parentNextSiblings with
  | some sibs => scanSiblings (sibs.take 3) info
  | none => .ok info

/-- Heuristic A (lines 95-111): for every keyword, for the first two text
hits, scan siblings.  The `break` of the inner loop does not stop the outer
loops, so later hits overwrite earlier results. -/
def heuristicA (sectionsFor : String → List TextHit) (info0 : OrganizerInfo) :
    Except (String × OrganizerInfo) OrganizerInfo :=
  organizer_keywords.foldlM
    (fun info kw =>
      ((sectionsFor kw).take 2).foldlM (fun i hit => scanHit hit i) info)
    info0

/-- Heuristic B (lines 113-122): findall over the markup, drop blocklisted
matches, take the first survivor. -/
def heuristicB (markup : String) (info : OrganizerInfo) : OrganizerInfo :=
  let emails := email_pattern_findall markup
  if emails.isEmpty then info
  else
    let filtered := emails.filter (fun e => !(isSocialEmail e))
    match filtered with
    | e0 :: _ =>
      { info with organiser_email := e0, verification_status := "Email_Found" }
    | [] => info

/-- The loop of heuristic C over the first two contact links (lines 126-133). -/
def heuristicCGo (join : String → String → String) (head : HeadFn)
    (event_url : String) : List CLink → OrganizerInfo → OrganizerInfo
  | [], info => info
  | l :: rest, info =>
    match l.href with
    | some href =>
      if href = "" then heuristicCGo join head event_url rest info
      else if pyStartsWith href "mailto:" then heuristicCGo join head event_url rest info
      else
        let full_url := join event_url href
        if validate_url head full_url then
          { info with
              organiser_website := full_url,
              verification_status := "Contact_Page_Found" }
        else heuristicCGo join head event_url rest info
    | none => heuristicCGo join head event_url rest info

/-- Heuristic C (lines 125-133). -/
def heuristicC (join : String → String → String) (head : HeadFn)
    (event_url : String) (links : List CLink) (info : OrganizerInfo) :
    OrganizerInfo :=
  heuristicCGo join head event_url (links.take 2) info

/-- `extract_organizer_details` (lines 74-141).  A failed fetch, or an
exception inside heuristic A, lands in the `except` branch which stamps
`Error: ` plus the truncated message on the state reached so far.  The
`time.sleep(REQUEST_DELAY)` throttle has no observable effect on the data. -/
def extract_organizer_details (event_url : String) (headers : Headers)
    (env : Env) : OrganizerInfo :=
  match env.detail event_url headers with
  | .error e =>
    { initOrganizerInfo with verification_status := "Error: " ++ pyTake 50 e }
  | .ok page =>
    match heuristicA page.sectionsFor initOrganizerInfo with
    | .error (msg, infoSoFar) =>
      { infoSoFar with verification_status := "Error: " ++ pyTake 50 msg }
    | .ok i1 =>
      let i2 := heuristicB page.markup i1
      heuristicC env.urljoin env.head event_url page.contactLinks i2

/-! ### Card parser -/

def winOpenPat : List Char := "window.open(".data

def isQuoteChar (c : Char) : Bool := c == '"' || c == Char.ofNat 39

/-- Try the pattern `window\.open\(['\"]([^'\"]+)['\"]` at the current
position; returns the captured group. -/
def tryWinOpenHere (l : List Char) : Option (List Char) :=
  if winOpenPat.isPrefixOf l then
    let r := l.drop winOpenPat.length
    match r with
    | q :: r2 =>
      if isQuoteChar q then
        let cap := r2.takeWhile (fun c => !(isQuoteChar c))
        if cap.isEmpty then none
        else
          match (r2.drop cap.length).head? with
          | some q2 => if isQuoteChar q2 then some cap else none
          | none => none
      else none
    | [] => none
  else none

/-- `re.search(r"window\.open\(['\"]([^'\"]+)['\"]", onclick)` (line 159). -/
def findWindowOpenUrl : List Char → Option (List Char)
  | [] => none
  | c :: t =>
    match tryWinOpenHere (c :: t) with
    | some cap => some cap
    | none => findWindowOpenUrl t

/-- `extract_event_data_from_card` (lines 143-198).  All operations are total
here, so the `except Exception` branch returning `None` is unreachable and the
function is modelled as returning the data directly. -/
def extract_event_data_from_card (card : Card) : EventData :=
  let event_date :=
    match card.dateTd with
    | some d => d
    | none => "N/A"
  let ln : String × String :=
    match card.onclick with
    | some oc =>
      match findWindowOpenUrl oc.data with
      | some cap =>
        let link := String.mk cap
        let rawName := (pySplitS "/" link).getLastD ""
        (link, pyStrip (pyTitle (collapseHyphens rawName)))
      | none => ("N/A", "N/A")
    | none => ("N/A", "N/A")
  let cs : String × String :=
    match card.venue with
    | some v =>
      match v.linkText with
      | some loc =>
        if ',' ∈ loc.data then
          let parts := pySplitS "," loc
          (pyStrip (parts.headD ""),
           if 1 < parts.length then pyStrip (parts.getLastD "") else "N/A")
        else (loc, "N/A")
      | none => (v.divText, "N/A")
    | none => ("N/A", "N/A")
  ⟨event_date, ln.1, ln.2, cs.1, cs.2⟩

/-! ### Driver loop and reporter -/

/-- The fallback `organizer_info` used when the event link is sentinel
(line 243).  The source dictionary omits `contact_person`; the key is never
read, so it is represented by the sentinel. -/
def noDetailsInfo : OrganizerInfo :=
  ⟨"N/A", "N/A", "N/A", "N/A", "No_Details"⟩

def mkRecord (ed : EventData) (oi : OrganizerInfo) (notes : String) :
    EventRecord :=
  ⟨ed.event_name, ed.event_date, ed.city, ed.state,
   oi.organiser_name, oi.organiser_website, oi.organiser_email,
   ed.event_link, oi.verification_status, notes⟩

/-- The per-event loop (lines 227-277).  `i` is the 1-based enumeration index.
Events whose name is sentinel are skipped (`continue`); every operation in the
body is total here, so the per-event `except` branch is unreachable in the
model.  Returns the scraped records and the validation-log entries. -/
def processEvents (env : Env) (headers : Headers) :
    Nat → List Card → List EventRecord × List String
  | _, [] => ([], [])
  | i, card :: rest =>
    let ed := extract_event_data_from_card card
    if ed.event_name = "N/A" then processEvents env headers (i + 1) rest
    else
      let oi :=
        if ed.event_link ≠ "N/A" then
          extract_organizer_details ed.event_link headers env
        else noDetailsInfo
      let notesList :=
        (if oi.organiser_website ≠ "N/A" then
          [if validate_url env.head oi.organiser_website then "Website_Valid"
           else "Website_Invalid"]
         else []) ++
        (if oi.organiser_email ≠ "N/A" then
          [if validate_email_format oi.organiser_email then "Email_Format_Valid"
           else "Email_Format_Invalid"]
         else [])
      let notes := pyJoin ", " notesList
      let entry := "Event " ++ toString i ++ ": " ++ ed.event_name ++
        " | Status: " ++ oi.verification_status ++ " | Notes: " ++ notes
      let p := processEvents env headers (i + 1) rest
      (mkRecord ed oi notes :: p.1, entry :: p.2)

/-- The validation-log file contents (lines 280-285). -/
def logFileContent (now : String) (total : Nat) (entries : List String) :
    String :=
  "EVENT ORGANIZER SCRAPING VALIDATION LOG\n" ++
  "Scraped on: " ++ now ++ "\n" ++
  "Total events processed: " ++ toString total ++ "\n\n" ++
  String.join (entries.map (fun e => e ++ "\n"))

/-- `scrape_10times_medical_pharma` (lines 200-300): fetch the listing page,
truncate to `eventsToScrape` cards, run the per-event loop, write the log.
Any exception of the listing fetch returns the empty list without writing the
log (`none`). -/
def scrape_10times_medical_pharma (cfg : Config) (env : Env) :
    List EventRecord × Option String :=
  let headers := get_stealth_headers
  match env.listing headers with
  | .error _ => ([], none)
  | .ok cards =>
    let p := processEvents env headers 1 (cards.take cfg.eventsToScrape)
    (p.1, some (logFileContent env.now p.1.length p.2))

/-- The fixed CSV column order (lines 310-314). -/
def csv_headers : List String :=
  ["Event Name", "Date", "City", "State",
   "Organiser Name", "Organiser Website", "Organiser Email",
   "Event Link", "Verification Status", "Validation Notes"]

/-- One CSV row (lines 317-330); every key is present on records produced by
the pipeline, so the `.get(key, 'N/A')` defaults never fire. -/
def csvRow (r : EventRecord) : List String :=
  [r.event_name, r.event_date, r.city, r.state,
   r.organiser_name, r.organiser_website, r.organiser_email,
   r.event_link, r.verification_status, r.validation_notes]

/-- `save_to_csv_with_validation` (lines 302-336): `None` (nothing written)
on empty data, otherwise the header row followed by one row per record. -/
def save_to_csv_with_validation (data : List EventRecord) :
    Option (List (List String)) :=
  if data.isEmpty then none
  else some (csv_headers :: data.map csvRow)

/-! ### Concrete fixtures used by the theorems -/

/-- A sibling whose first link qualifies, under the first keyword examined. -/
def hitFirst : TextHit := ⟨some [⟨some ⟨some "http://first.com", "First"⟩⟩]⟩

/-- A sibling whose first link qualifies, under a later keyword. -/
def hitSecond : TextHit := ⟨some [⟨some ⟨some "http://second.com", "Second"⟩⟩]⟩

/-- Two qualifying hits under two different keywords: the keyword
`"organizer"` is examined before `"hosted by"`. -/
def sectionsForC2 : String → List TextHit := fun kw =>
  if kw = "organizer" then [hitFirst]
  else if kw = "hosted by" then [hitSecond]
  else []

def pageC2 : Page := ⟨sectionsForC2, "", []⟩

def envC2 : Env :=
  { now := "t", listing := fun _ => .ok [],
    detail := fun _ _ => .ok pageC2,
    head := fun _ _ => .error "no network",
    urljoin := fun _ h => h }

/-- A detail page whose markup holds a blocklisted and a surviving email, and
where heuristic A finds an organizer link first. -/
def pageC3 : Page :=
  ⟨fun kw =>
     if kw = "organizer" then [⟨some [⟨some ⟨some "http://org.example", "Org Events"⟩⟩]⟩]
     else [],
   "<a href=\"mailto:info@facebook.com\">fb</a> press@acme-pharma.com", []⟩

def envC3 : Env :=
  { now := "t", listing := fun _ => .ok [],
    detail := fun _ _ => .ok pageC3,
    head := fun _ _ => .error "no network",
    urljoin := fun _ h => h }

def cardA : Card :=
  ⟨some "Mar 1", some "window.open(\"http://ev.example/alpha-expo\",\"_blank\")", none⟩

def cardB : Card :=
  ⟨some "Apr 2", some "window.open(\"http://ev.example/beta-summit\",\"_blank\")", none⟩

/-- A detail page on which every heuristic comes up empty. -/
def pageOk : Page := ⟨fun _ => [], "", []⟩

/-- Two listed events; fetching the detail page of the first one raises. -/
def envC4 : Env :=
  { now := "t",
    listing := fun _ => .ok [cardA, cardB],
    detail := fun u _ =>
      if u = "http://ev.example/alpha-expo" then .error "HTTPSConnectionPool timeout"
      else .ok pageOk,
    head := fun _ _ => .error "no network",
    urljoin := fun _ h => h }

def cfg4 : Config := ⟨10, true, 2, "verified_event_organizers.csv", "data_validation_log.txt"⟩

/-- An environment whose listing fetch raises. -/
def envFail : Env :=
  { now := "t",
    listing := fun _ => .error "403 Client Error",
    detail := fun _ _ => .error "x",
    head := fun _ _ => .error "x",
    urljoin := fun _ h => h }

/-- A HEAD oracle that always raises (timeout). -/
def headStubTimeout : HeadFn := fun _ _ => .error "timeout"

/-- A sibling link qualifies for heuristic A iff its href is present,
nonempty (Python truthiness), not a mail-link, and contains `http`. -/
def qualifiesA (e : SibElem) : Bool :=
  match e.firstA with
  | some link =>
    match link.href with
    | some href =>
      !(href == "") && !(pyStartsWith href "mailto:") && isSubChars "http".data href.data
    | none => false
  | none => false

/-! ### Helper lemmas about the email-format matcher -/

theorem emailDomain_of_decomp {dom tld : List Char} (hd : dom ≠ [])
    (hda : dom.all isDomChar = true) (h2 : 2 ≤ tld.length)
    (ha : tld.all Char.isAlpha = true) :
    emailDomain (dom ++ '.' :: tld) = true := by
  apply List.any_eq_true.mpr
  refine ⟨dom.length, List.mem_range.mpr ?_, ?_⟩
  · simp only [List.length_append, List.length_cons]
    omega
  · have hne : dom.isEmpty = false := by
      cases dom with
      | nil => exact absurd rfl hd
      | cons a as => rfl
    simp only [List.take_left, List.drop_left, hne, hda, Bool.not_false,
      Bool.true_and, Bool.and_true, beq_self_eq_true, decide_eq_true_iff, ha]
    exact h2

theorem emailCore_of_decomp {loc dom tld : List Char} (hl : loc ≠ [])
    (hla : loc.all isLocalChar = true) (hd : dom ≠ [])
    (hda : dom.all isDomChar = true) (h2 : 2 ≤ tld.length)
    (ha : tld.all Char.isAlpha = true) :
    emailCore (loc ++ '@' :: (dom ++ '.' :: tld)) = true := by
  apply List.any_eq_true.mpr
  refine ⟨loc.length, List.mem_range.mpr ?_, ?_⟩
  · simp only [List.length_append, List.length_cons]
    omega
  · have hne : loc.isEmpty = false := by
      cases loc with
      | nil => exact absurd rfl hl
      | cons a as => rfl
    simp only [List.take_left, List.drop_left, hne, hla, Bool.not_false,
      Bool.true_and, Bool.and_true, beq_self_eq_true]
    exact emailDomain_of_decomp hd hda h2 ha

theorem emailCore_mem_at {l : List Char} (h : emailCore l = true) : '@' ∈ l := by
  unfold emailCore at h
  rw [List.any_eq_true] at h
  obtain ⟨i, -, hb⟩ := h
  cases hd : l.drop i with
  | nil =>
    simp only [hd, Bool.and_false] at hb
    exact absurd hb Bool.false_ne_true
  | cons c rest =>
    simp only [hd, Bool.and_eq_true, beq_iff_eq] at hb
    have h1 : '@' ∈ l.drop i := by
      rw [hd, ← hb.2.1]
      exact List.mem_cons_self c rest
    exact (List.take_append_drop i l) ▸ List.mem_append_right _ h1

theorem emailDomain_decomp {r : List Char} (h : emailDomain r = true) :
    ∃ j tld, r.drop j = '.' :: tld ∧ 2 ≤ tld.length ∧
      tld.all Char.isAlpha = true := by
  unfold emailDomain at h
  rw [List.any_eq_true] at h
  obtain ⟨j, -, hb⟩ := h
  cases hd : r.drop j with
  | nil =>
    simp only [hd, Bool.and_false] at hb
    exact absurd hb Bool.false_ne_true
  | cons c tld =>
    simp only [hd, Bool.and_eq_true, beq_iff_eq, decide_eq_true_iff] at hb
    exact ⟨j, tld, by rw [hd, hb.2.1.1], hb.2.1.2, hb.2.2⟩

theorem hasTLD_cons (c : Char) {t : List Char} (h : hasTLDsegment t = true) :
    hasTLDsegment (c :: t) = true := by
  simp only [hasTLDsegment, h, Bool.or_true]

theorem hasTLD_append_left (l1 : List Char) {t : List Char}
    (h : hasTLDsegment t = true) : hasTLDsegment (l1 ++ t) = true := by
  induction l1 with
  | nil => simpa using h
  | cons c cs ih =>
    rw [List.cons_append]
    exact hasTLD_cons c ih

theorem hasTLD_dot_cons {tld : List Char} (h2 : 2 ≤ tld.length)
    (ha : tld.all Char.isAlpha = true) :
    hasTLDsegment ('.' :: tld) = true := by
  simp only [hasTLDsegment, Bool.or_eq_true]
  left
  simp only [Bool.and_eq_true, beq_self_eq_true, decide_eq_true_iff]
  refine ⟨⟨trivial, h2⟩, ?_⟩
  rw [List.all_eq_true] at ha ⊢
  exact fun x hx => ha x (List.mem_of_mem_take hx)

theorem hasTLD_append_right {l : List Char} (l' : List Char)
    (h : hasTLDsegment l = true) : hasTLDsegment (l ++ l') = true := by
  induction l with
  | nil => simp [hasTLDsegment] at h
  | cons c t ih =>
    rw [List.cons_append]
    simp only [hasTLDsegment, Bool.or_eq_true] at h ⊢
    rcases h with hhead | htail
    · left
      simp only [Bool.and_eq_true, decide_eq_true_iff] at hhead ⊢
      obtain ⟨⟨hc, h2⟩, hall⟩ := hhead
      refine ⟨⟨hc, ?_⟩, ?_⟩
      · rw [List.length_append]
        omega
      · rw [List.take_append_eq_append_take, Nat.sub_eq_zero_of_le h2,
          List.take_zero, List.append_nil]
        exact hall
    · right
      exact ih htail

theorem emailCore_hasTLD {l : List Char} (h : emailCore l = true) :
    hasTLDsegment l = true := by
  unfold emailCore at h
  rw [List.any_eq_true] at h
  obtain ⟨i, -, hb⟩ := h
  cases hd : l.drop i with
  | nil =>
    simp only [hd, Bool.and_false] at hb
    exact absurd hb Bool.false_ne_true
  | cons c rest =>
    simp only [hd, Bool.and_eq_true, beq_iff_eq] at hb
    obtain ⟨j, tld, hdj, h2, ha⟩ := emailDomain_decomp hb.2.2
    have hrest : hasTLDsegment rest = true := by
      have := hasTLD_append_left (rest.take j) (hdj ▸ hasTLD_dot_cons h2 ha)
      rwa [List.take_append_drop] at this
    have hdrop : hasTLDsegment (l.drop i) = true := by
      rw [hd]
      exact hasTLD_cons c hrest
    have := hasTLD_append_left (l.take i) hdrop
    rwa [List.take_append_drop] at this

/-- Claim C1: every string matching the anchored format regex (nonempty
local part over `[a-zA-Z0-9._%+-]`, an `@`, a nonempty domain over
`[a-zA-Z0-9.-]`, a dot, and a TLD of 2 or more letters) is accepted by
`validate_email_format`; every string lacking an `@`, and every string with
no dot followed by two letters, is rejected.  In particular
`"a.b@sub.example.co"` is accepted while `"not-an-email"` and `"x@y"` are
rejected. -/
theorem c1_validate_email_format :
    (∀ loc dom tld : List Char,
        loc ≠ [] → loc.all isLocalChar = true →
        dom ≠ [] → dom.all isDomChar = true →
        2 ≤ tld.length → tld.all Char.isAlpha = true →
        validate_email_format (String.mk (loc ++ '@' :: (dom ++ '.' :: tld))) = true) ∧
    (∀ s : String, '@' ∉ s.data → validate_email_format s = false) ∧
    (∀ s : String, hasTLDsegment s.data = false → validate_email_format s = false) ∧
    validate_email_format "a.b@sub.example.co" = true ∧
    validate_email_format "not-an-email" = false ∧
    validate_email_format "x@y" = false := by
  refine ⟨?_, ?_, ?_, by decide, by decide, by decide⟩
  · intro loc dom tld hl hla hd hda h2 ha
    have hc : emailCore (String.mk (loc ++ '@' :: (dom ++ '.' :: tld))).data = true :=
      emailCore_of_decomp hl hla hd hda h2 ha
    simp [validate_email_format, hc]
  · intro s h
    have h1 : emailCore s.data = false := by
      rw [Bool.eq_false_iff]
      exact fun hc => h (emailCore_mem_at hc)
    have h2 : emailCore s.data.dropLast = false := by
      rw [Bool.eq_false_iff]
      intro hc
      exact h (List.Sublist.mem (emailCore_mem_at hc) (List.dropLast_sublist s.data))
    unfold validate_email_format
    rw [h1, Bool.false_or]
    cases hg : s.data.getLast? with
    | none => rfl
    | some c => simp [h2]
  · intro s h
    have h1 : emailCore s.data = false := by
      rw [Bool.eq_false_iff]
      intro hc
      rw [emailCore_hasTLD hc] at h
      exact Bool.true_eq_false ▸ h
    unfold validate_email_format
    rw [h1, Bool.false_or]
    cases hg : s.data.getLast? with
    | none => rfl
    | some c =>
      have hne : s.data ≠ [] := by
        intro hnil
        rw [hnil] at hg
        exact absurd hg (by simp)
      have h2 : emailCore s.data.dropLast = false := by
        rw [Bool.eq_false_iff]
        intro hc
        have := hasTLD_append_right [s.data.getLast hne] (emailCore_hasTLD hc)
        rw [List.dropLast_append_getLast hne] at this
        rw [this] at h
        exact Bool.true_eq_false ▸ h
      simp [h2]

/-- Witness for C1 at concrete inputs. -/
theorem c1_witness :
    validate_email_format (String.mk ("ab".data ++ '@' :: ("cd".data ++ '.' :: "org".data))) = true ∧
    validate_email_format "no-at-sign-here.com" = false ∧
    validate_email_format "x@y" = false := by
  refine ⟨?_, ?_, ?_⟩
  · exact c1_validate_email_format.1 "ab".data "cd".data "org".data
      (by decide) (by decide) (by decide) (by decide) (by decide) (by decide)
  · exact c1_validate_email_format.2.1 "no-at-sign-here.com" (by decide)
  · exact c1_validate_email_format.2.2.1 "x@y" (by decide)

/-! ### Heuristic A: the break stops only the sibling scan -/

theorem scanSiblings_break (e : SibElem) (rest : List SibElem)
    (info : OrganizerInfo) (h : qualifiesA e = true) :
    scanSiblings (e :: rest) info = scanSiblings [e] info := by
  obtain ⟨fa⟩ := e
  cases fa with
  | none => simp [qualifiesA] at h
  | some link =>
    cases hl : link.href with
    | none => simp [qualifiesA, hl] at h
    | some href =>
      simp only [qualifiesA, hl, Bool.and_eq_true, Bool.not_eq_true',
        beq_eq_false_iff_ne, ne_eq] at h
      obtain ⟨⟨hne, hm⟩, hs⟩ := h
      have hcond : (!pyStartsWith href "mailto:" && isSubChars "http".data href.data) = true := by
        rw [hm, hs]
        rfl
      simp only [scanSiblings, hl, if_neg hne, hcond, eq_self_iff_true, if_true]

/-- Claim C2 counterexample: on `envC2` the first qualifying link examined by
heuristic A (under the keyword `"organizer"`, which is examined first) is
`http://first.com`, yet the returned record carries `http://second.com`,
found later under the keyword `"hosted by"` — the first qualifying link does
not remain. -/
theorem c2_counterexample :
    extract_organizer_details "http://ev" get_stealth_headers envC2 =
      { organiser_name := "Second", organiser_website := "http://second.com",
        organiser_email := "N/A", contact_person := "N/A",
        verification_status := "Website_Found" } ∧
    (extract_organizer_details "http://ev" get_stealth_headers envC2).organiser_website ≠
      "http://first.com" := by
  exact ⟨by decide, by decide⟩

/-- Claim C2 (amended): the `break` of heuristic A stops only the sibling
scan of the current keyword/text match — within one match, siblings after the
first qualifying link are never examined — but iteration over later text
matches and keywords continues and overwrites organiser_website,
organiser_name and the status, so the values that remain come from the last
keyword/match whose sibling scan finds a qualifying link. -/
theorem c2_amended :
    (∀ (e : SibElem) (rest : List SibElem) (info : OrganizerInfo),
        qualifiesA e = true →
        scanSiblings (e :: rest) info = scanSiblings [e] info) ∧
    extract_organizer_details "http://ev" get_stealth_headers envC2 =
      { organiser_name := "Second", organiser_website := "http://second.com",
        organiser_email := "N/A", contact_person := "N/A",
        verification_status := "Website_Found" } :=
  ⟨fun e rest info h => scanSiblings_break e rest info h, by decide⟩

/-- Witness for C2 (amended) at a concrete qualifying sibling. -/
theorem c2_amended_witness :
    scanSiblings [⟨some ⟨some "http://first.com", "First"⟩⟩,
        ⟨some ⟨some "http://junk.com", "Junk"⟩⟩] initOrganizerInfo =
      scanSiblings [⟨some ⟨some "http://first.com", "First"⟩⟩] initOrganizerInfo :=
  c2_amended.1 ⟨some ⟨some "http://first.com", "First"⟩⟩
    [⟨some ⟨some "http://junk.com", "Junk"⟩⟩] initOrganizerInfo (by decide)

/-! ### Heuristic B -/

/-- Claim C3: heuristic B applies the email regex to the whole markup,
discards matches containing a blocklisted fragment, and, if a match survives,
stores the first survivor as organiser_email with status `Email_Found`,
overwriting the status set by heuristic A.  On markup containing
`mailto:info@facebook.com` and `press@acme-pharma.com` it selects the
latter. -/
theorem c3_heuristicB :
    (∀ (markup : String) (info : OrganizerInfo) (e : String) (es : List String),
        (email_pattern_findall markup).filter (fun x => !(isSocialEmail x)) = e :: es →
        heuristicB markup info =
          { info with organiser_email := e, verification_status := "Email_Found" }) ∧
    (∀ (markup : String) (info : OrganizerInfo),
        (email_pattern_findall markup).filter (fun x => !(isSocialEmail x)) = [] →
        heuristicB markup info = info) ∧
    email_pattern_findall pageC3.markup = ["info@facebook.com", "press@acme-pharma.com"] ∧
    isSocialEmail "info@facebook.com" = true ∧
    isSocialEmail "press@acme-pharma.com" = false ∧
    extract_organizer_details "http://ev" get_stealth_headers envC3 =
      { organiser_name := "Org Events", organiser_website := "http://org.example",
        organiser_email := "press@acme-pharma.com", contact_person := "N/A",
        verification_status := "Email_Found" } := by
  refine ⟨?_, ?_, by decide, by decide, by decide, by decide⟩
  · intro markup info e es h
    cases hm : email_pattern_findall markup with
    | nil => rw [hm, List.filter_nil] at h; exact absurd h (by simp)
    | cons a t =>
      rw [hm] at h
      simp only [heuristicB, hm, List.isEmpty_cons, Bool.false_eq_true,
        if_false, h]
  · intro markup info h
    cases hm : email_pattern_findall markup with
    | nil => simp [heuristicB, hm]
    | cons a t =>
      rw [hm] at h
      simp only [heuristicB, hm, List.isEmpty_cons, Bool.false_eq_true,
        if_false, h]

/-- Witness for C3 at the concrete markup of `pageC3`. -/
theorem c3_witness :
    heuristicB pageC3.markup initOrganizerInfo =
      { initOrganizerInfo with
          organiser_email := "press@acme-pharma.com"
          verification_status := "Email_Found" } :=
  c3_heuristicB.1 pageC3.markup initOrganizerInfo "press@acme-pharma.com" []
    (by decide)

/-! ### Card parser: location splitting -/

theorem pySplitGo_ne_nil (s0 : Char) (srest : List Char) (fuel : Nat)
    (l : List Char) : pySplitGo s0 srest fuel l ≠ [] := by
  cases fuel with
  | zero => cases l <;> simp [pySplitGo]
  | succ f =>
    cases l with
    | nil => simp [pySplitGo]
    | cons c t =>
      rw [pySplitGo]
      split
      · simp
      · split <;> simp

theorem pySplit_ne_nil (s0 : Char) (srest : List Char) (l : List Char) :
    pySplit s0 srest l ≠ [] :=
  pySplitGo_ne_nil s0 srest (l.length + 1) l

theorem pySplitGo_comma_len :
    ∀ (fuel : Nat) (l : List Char), ',' ∈ l → l.length < fuel →
    1 < (pySplitGo ',' [] fuel l).length := by
  intro fuel
  induction fuel with
  | zero =>
    intro l hmem hlen
    omega
  | succ f ih =>
    intro l hmem hlen
    cases l with
    | nil => simp at hmem
    | cons c t =>
      rw [pySplitGo]
      by_cases hc : c = ','
      · subst hc
        rw [if_pos (by simp [List.isPrefixOf])]
        simp only [List.length_cons]
        exact Nat.succ_lt_succ (List.length_pos.mpr (pySplitGo_ne_nil _ _ _ _))
      · have hmemt : ',' ∈ t := by
          cases List.mem_cons.mp hmem with
          | inl he => exact absurd he.symm hc
          | inr ht => exact ht
        rw [if_neg (by simp [hc])]
        have hlt : t.length < f := by
          simp only [List.length_cons] at hlen
          omega
        have := ih t hmemt hlt
        cases hp : pySplitGo ',' [] f t with
        | nil => exact absurd hp (pySplitGo_ne_nil ',' [] f t)
        | cons p ps =>
          rw [hp] at this
          simp only [List.length_cons] at this ⊢
          omega

theorem pySplit_comma_len {l : List Char} (h : ',' ∈ l) :
    1 < (pySplit ',' [] l).length :=
  pySplitGo_comma_len (l.length + 1) l h (Nat.lt_succ_self _)

/-- Claim C5: for every venue text reached through the venue sub-link, a text
with a comma splits into city (trimmed segment before the first comma) and
state (trimmed last comma-separated token); a text without a comma becomes
the city with sentinel state; and an absent venue element yields sentinel
city and state.  Concretely, "Boston, MA" gives Boston/MA, "Boston" gives
Boston/"N/A", and "Boston, Greater Area, MA" gives Boston/MA. -/
theorem c5_location_parsing :
    (∀ (d oc : Option String) (dt : String) (t : String),
        (',' ∈ t.data →
          (extract_event_data_from_card ⟨d, oc, some ⟨some t, dt⟩⟩).city =
              pyStrip ((pySplitS "," t).headD "") ∧
          (extract_event_data_from_card ⟨d, oc, some ⟨some t, dt⟩⟩).state =
              pyStrip ((pySplitS "," t).getLastD "")) ∧
        (',' ∉ t.data →
          (extract_event_data_from_card ⟨d, oc, some ⟨some t, dt⟩⟩).city = t ∧
          (extract_event_data_from_card ⟨d, oc, some ⟨some t, dt⟩⟩).state = "N/A")) ∧
    (∀ (d oc : Option String),
        (extract_event_data_from_card ⟨d, oc, none⟩).city = "N/A" ∧
        (extract_event_data_from_card ⟨d, oc, none⟩).state = "N/A") ∧
    (extract_event_data_from_card ⟨none, none, some ⟨some "Boston, MA", ""⟩⟩).city = "Boston" ∧
    (extract_event_data_from_card ⟨none, none, some ⟨some "Boston, MA", ""⟩⟩).state = "MA" ∧
    (extract_event_data_from_card ⟨none, none, some ⟨some "Boston", ""⟩⟩).city = "Boston" ∧
    (extract_event_data_from_card ⟨none, none, some ⟨some "Boston", ""⟩⟩).state = "N/A" ∧
    (extract_event_data_from_card
      ⟨none, none, some ⟨some "Boston, Greater Area, MA", ""⟩⟩).city = "Boston" ∧
    (extract_event_data_from_card
      ⟨none, none, some ⟨some "Boston, Greater Area, MA", ""⟩⟩).state = "MA" := by
  refine ⟨?_, ?_, by decide, by decide, by decide, by decide, by decide, by decide⟩
  · intro d oc dt t
    constructor
    · intro hmem
      have hlen : 1 < (pySplitS "," t).length := by
        simp only [pySplitS, List.length_map]
        exact pySplit_comma_len hmem
      constructor
      · simp [extract_event_data_from_card, if_pos hmem]
      · simp [extract_event_data_from_card, if_pos hmem, if_pos hlen]
    · intro hmem
      constructor
      · simp [extract_event_data_from_card, if_neg hmem]
      · simp [extract_event_data_from_card, if_neg hmem]
  · intro d oc
    exact ⟨by simp [extract_event_data_from_card], by simp [extract_event_data_from_card]⟩

/-- Witness for C5 at concrete venue texts. -/
theorem c5_witness :
    (extract_event_data_from_card ⟨none, none, some ⟨some "Boston, MA", ""⟩⟩).city =
        pyStrip ((pySplitS "," "Boston, MA").headD "") ∧
    (extract_event_data_from_card ⟨none, none, some ⟨some "Boston, MA", ""⟩⟩).state =
        pyStrip ((pySplitS "," "Boston, MA").getLastD "") ∧
    (extract_event_data_from_card ⟨none, none, some ⟨some "Boston", ""⟩⟩).city = "Boston" := by
  have h1 := (c5_location_parsing.1 none none "" "Boston, MA").1 (by decide)
  have h2 := (c5_location_parsing.1 none none "" "Boston").2 (by decide)
  exact ⟨h1.1, h1.2, h2.1⟩

/-! ### URL liveness check -/

/-- Claim C6: `validate_url` returns true iff the HEAD request completes with
status exactly 200, 301 or 302; every exception (modelled as `Except.error`)
yields false, and the function is total (never propagates an exception). -/
theorem c6_validate_url (head : HeadFn) (url : String) :
    (validate_url head url = true ↔
      (head url get_stealth_headers = .ok 200 ∨
        head url get_stealth_headers = .ok 301 ∨
        head url get_stealth_headers = .ok 302)) ∧
    (∀ msg, head url get_stealth_headers = .error msg →
      validate_url head url = false) := by
  constructor
  · cases h : head url get_stealth_headers with
    | ok code => simp [validate_url, h]
    | error e => simp [validate_url, h]
  · intro msg hmsg
    simp [validate_url, hmsg]

/-- Witness for C6 with a HEAD oracle that raises a timeout. -/
theorem c6_witness : validate_url headStubTimeout "https://example.com" = false :=
  (c6_validate_url headStubTimeout "https://example.com").2 "timeout" rfl

/-! ### Error handling of the organizer extractor and the driver loop -/

theorem processEvents_fst_length (env : Env) (headers : Headers) :
    ∀ (i : Nat) (cards : List Card),
    (processEvents env headers i cards).1.length =
      cards.countP (fun c => !((extract_event_data_from_card c).event_name == "N/A")) := by
  intro i cards
  induction cards generalizing i with
  | nil => simp [processEvents]
  | cons c rest ih =>
    rw [processEvents]
    by_cases h : (extract_event_data_from_card c).event_name = "N/A"
    · rw [if_pos h]
      have hb : ((extract_event_data_from_card c).event_name == "N/A") = true :=
        beq_iff_eq.mpr h
      rw [ih (i + 1)]
      simp [List.countP_cons, hb]
    · rw [if_neg h]
      have hb : ((extract_event_data_from_card c).event_name == "N/A") = false :=
        beq_eq_false_iff_ne.mpr h
      simp only [List.countP_cons, hb, Bool.not_false, if_pos]
      simp [ih (i + 1)]

/-- Claim C4: a raised detail-page fetch is caught: the record keeps every
organizer field at the sentinel and gets status `Error: ` plus the exception
message truncated to 50 characters; the number of records produced by the
driver loop depends only on the listing result, never on detail-fetch
failures; and on a concrete two-event run whose first detail fetch raises,
both events are still emitted, the first as an error record. -/
theorem c4_detail_fetch_error :
    (∀ (url : String) (headers : Headers) (env : Env) (msg : String),
        env.detail url headers = .error msg →
        extract_organizer_details url headers env =
          ⟨"N/A", "N/A", "N/A", "N/A", "Error: " ++ pyTake 50 msg⟩) ∧
    (∀ (cfg : Config) (env env' : Env),
        env.listing get_stealth_headers = env'.listing get_stealth_headers →
        (scrape_10times_medical_pharma cfg env).1.length =
          (scrape_10times_medical_pharma cfg env').1.length) ∧
    (scrape_10times_medical_pharma cfg4 envC4).1 =
      [⟨"Alpha Expo", "Mar 1", "N/A", "N/A", "N/A", "N/A", "N/A",
        "http://ev.example/alpha-expo", "Error: HTTPSConnectionPool timeout", ""⟩,
       ⟨"Beta Summit", "Apr 2", "N/A", "N/A", "N/A", "N/A", "N/A",
        "http://ev.example/beta-summit", "Unverified", ""⟩] := by
  refine ⟨?_, ?_, by decide⟩
  · intro url headers env msg h
    simp only [extract_organizer_details, h]
    rfl
  · intro cfg env env' hL
    simp only [scrape_10times_medical_pharma]
    cases h : env'.listing get_stealth_headers with
    | error e =>
      rw [hL, h]
    | ok cards =>
      rw [hL, h]
      simp only [processEvents_fst_length]

/-- Witness for C4 at the concrete failing fetch of `envC4`. -/
theorem c4_witness :
    extract_organizer_details "http://ev.example/alpha-expo" get_stealth_headers envC4 =
      ⟨"N/A", "N/A", "N/A", "N/A", "Error: " ++ pyTake 50 "HTTPSConnectionPool timeout"⟩ ∧
    (scrape_10times_medical_pharma cfg4 envC4).1.length =
      (scrape_10times_medical_pharma cfg4 envC4).1.length :=
  ⟨c4_detail_fetch_error.1 "http://ev.example/alpha-expo" get_stealth_headers envC4
      "HTTPSConnectionPool timeout" rfl,
   c4_detail_fetch_error.2.1 cfg4 envC4 envC4 rfl⟩

/-- Claim C9: a failed listing fetch aborts the whole run with the empty
result set — no records, no log, and the CSV writer writes nothing — while a
failed detail fetch (envC4) degrades only that record and the run continues
with the remaining events. -/
theorem c9_listing_failure :
    (∀ (cfg : Config) (env : Env) (msg : String),
        env.listing get_stealth_headers = .error msg →
        scrape_10times_medical_pharma cfg env = ([], none) ∧
        save_to_csv_with_validation (scrape_10times_medical_pharma cfg env).1 = none) ∧
    (scrape_10times_medical_pharma cfg4 envC4).1.length = 2 ∧
    (scrape_10times_medical_pharma cfg4 envC4).1.map (fun r => r.verification_status) =
      ["Error: HTTPSConnectionPool timeout", "Unverified"] := by
  refine ⟨?_, by decide, by decide⟩
  · intro cfg env msg h
    have h1 : scrape_10times_medical_pharma cfg env = ([], none) := by
      simp only [scrape_10times_medical_pharma, h]
    refine ⟨h1, ?_⟩
    rw [h1]
    rfl

/-- Witness for C9 with a listing fetch that raises. -/
theorem c9_witness :
    scrape_10times_medical_pharma cfg4 envFail = ([], none) ∧
    save_to_csv_with_validation (scrape_10times_medical_pharma cfg4 envFail).1 = none :=
  c9_listing_failure.1 cfg4 envFail "403 Client Error" rfl

/-! ### Reporter -/

/-- Claim C7 counterexample: on the concrete run of `envC4`, both records had
no validation check performed, and their Validation Notes cells hold the
empty string (the join of zero notes) rather than the sentinel "N/A" the
claim requires. -/
theorem c7_counterexample :
    save_to_csv_with_validation (scrape_10times_medical_pharma cfg4 envC4).1 =
      some [csv_headers,
        ["Alpha Expo", "Mar 1", "N/A", "N/A", "N/A", "N/A", "N/A",
         "http://ev.example/alpha-expo", "Error: HTTPSConnectionPool timeout", ""],
        ["Beta Summit", "Apr 2", "N/A", "N/A", "N/A", "N/A", "N/A",
         "http://ev.example/beta-summit", "Unverified", ""]] ∧
    ("" : String) ≠ "N/A" :=
  ⟨by decide, by decide⟩

/-- Claim C7 (amended): the CSV starts with exactly the ten columns in the
stated order and every row lists the record's ten fields in that order, with
unresolved organizer and location fields carrying the "N/A" sentinel they
were initialised to; but the Validation Notes field holds the comma-join of
the validation notes, which is the empty string — not "N/A" — when no
validation check was performed. -/
theorem c7_amended :
    (∀ data : List EventRecord, data ≠ [] →
        save_to_csv_with_validation data = some (csv_headers :: data.map csvRow)) ∧
    csv_headers = ["Event Name", "Date", "City", "State", "Organiser Name",
      "Organiser Website", "Organiser Email", "Event Link",
      "Verification Status", "Validation Notes"] ∧
    csv_headers.length = 10 ∧
    (∀ r : EventRecord, csvRow r =
      [r.event_name, r.event_date, r.city, r.state, r.organiser_name,
       r.organiser_website, r.organiser_email, r.event_link,
       r.verification_status, r.validation_notes]) ∧
    pyJoin ", " [] = "" := by
  refine ⟨?_, rfl, rfl, fun r => rfl, rfl⟩
  intro data h
  cases data with
  | nil => exact absurd rfl h
  | cons r rs => simp [save_to_csv_with_validation]

/-- Witness for C7 (amended) at a concrete one-record dataset. -/
theorem c7_amended_witness :
    save_to_csv_with_validation
        [⟨"E", "D", "C", "S", "N", "W", "M", "L", "V", ""⟩] =
      some (csv_headers ::
        [(⟨"E", "D", "C", "S", "N", "W", "M", "L", "V", ""⟩ : EventRecord)].map csvRow) :=
  c7_amended.1 [⟨"E", "D", "C", "S", "N", "W", "M", "L", "V", ""⟩]
    (List.cons_ne_nil _ _)

/-- Claim C8: the stealth-mode toggle has no observable effect: two runs that
differ only in the value of `useStealthMode` produce identical records, log
output, and CSV rows, because `get_stealth_headers` is a fixed header set
that never reads the toggle. -/
theorem c8_stealth_toggle_no_effect (cfg : Config) (env : Env) (b₁ b₂ : Bool) :
    scrape_10times_medical_pharma { cfg with useStealthMode := b₁ } env =
      scrape_10times_medical_pharma { cfg with useStealthMode := b₂ } env ∧
    save_to_csv_with_validation
        (scrape_10times_medical_pharma { cfg with useStealthMode := b₁ } env).1 =
      save_to_csv_with_validation
        (scrape_10times_medical_pharma { cfg with useStealthMode := b₂ } env).1 := by
  obtain ⟨a, sm, rd, oc, vl⟩ := cfg
  exact ⟨rfl, rfl⟩

/-! ### Heuristic C skips absent and mailto hrefs -/

theorem heuristicCGo_skip (join : String → String → String) (head : HeadFn)
    (url : String) (l : CLink) (rest : List CLink) (info : OrganizerInfo)
    (h : l.href = none ∨ ∃ s, l.href = some s ∧ pyStartsWith s "mailto:" = true) :
    heuristicCGo join head url (l :: rest) info =
      heuristicCGo join head url rest info := by
  rcases h with h | ⟨s, hs, hm⟩
  · simp [heuristicCGo, h]
  · have hne : ¬ s = "" := by
      intro he
      rw [he] at hm
      exact absurd hm (by decide)
    simp [heuristicCGo, hs, hne, hm]

theorem heuristicC_all_skipped (join : String → String → String) (head : HeadFn)
    (url : String) (links : List CLink) (info : OrganizerInfo)
    (h : ∀ l ∈ links.take 2,
      l.href = none ∨ ∃ s, l.href = some s ∧ pyStartsWith s "mailto:" = true) :
    heuristicC join head url links info = info := by
  unfold heuristicC
  have hgen : ∀ (ls : List CLink),
      (∀ l ∈ ls, l.href = none ∨ ∃ s, l.href = some s ∧ pyStartsWith s "mailto:" = true) →
      heuristicCGo join head url ls info = info := by
    intro ls
    induction ls with
    | nil => intro _; rfl
    | cons a t ih =>
      intro hall
      rw [heuristicCGo_skip join head url a t info (hall a (List.mem_cons_self a t))]
      exact ih (fun l hl => hall l (List.mem_cons_of_mem a hl))
  exact hgen (links.take 2) h

/-- Claim C10: heuristic C silently skips a candidate contact link whose href
is absent or starts with `mailto:`: the skip removes exactly one loop step,
and when every link among the first two is of that shape the heuristic
returns the record unchanged for every urljoin and every liveness oracle —
no resolution, no probe, no `organiser_website`, no `Contact_Page_Found`. -/
theorem c10_contact_link_skip :
    (∀ (join : String → String → String) (head : HeadFn) (url : String)
        (l : CLink) (rest : List CLink) (info : OrganizerInfo),
        (l.href = none ∨ ∃ s, l.href = some s ∧ pyStartsWith s "mailto:" = true) →
        heuristicCGo join head url (l :: rest) info =
          heuristicCGo join head url rest info) ∧
    (∀ (join : String → String → String) (head : HeadFn) (url : String)
        (links : List CLink) (info : OrganizerInfo),
        (∀ l ∈ links.take 2,
          l.href = none ∨ ∃ s, l.href = some s ∧ pyStartsWith s "mailto:" = true) →
        heuristicC join head url links info = info) :=
  ⟨heuristicCGo_skip, heuristicC_all_skipped⟩

/-- Witness for C10 at a concrete mailto link and an absent href. -/
theorem c10_witness :
    heuristicC (fun _ h => h) headStubTimeout "http://ev"
      [⟨some "mailto:info@ev.example"⟩, ⟨none⟩] initOrganizerInfo = initOrganizerInfo ∧
    heuristicCGo (fun _ h => h) headStubTimeout "http://ev"
      [⟨some "mailto:info@ev.example"⟩] initOrganizerInfo =
      heuristicCGo (fun _ h => h) headStubTimeout "http://ev" [] initOrganizerInfo := by
  constructor
  · apply c10_contact_link_skip.2
    intro l hl
    simp only [List.take, List.mem_cons, List.not_mem_nil, or_false] at hl
    rcases hl with h1 | h2
    · subst h1
      exact Or.inr ⟨"mailto:info@ev.example", rfl, by decide⟩
    · subst h2
      exact Or.inl rfl
  · exact c10_contact_link_skip.1 (fun _ h => h) headStubTimeout "http://ev"
      ⟨some "mailto:info@ev.example"⟩ [] initOrganizerInfo
      (Or.inr ⟨"mailto:info@ev.example", rfl, by decide⟩)
